import Mathlib

/-!
# Cropify — verification of the image transform pipeline and batch orchestrator

Shallow embedding of the core of the Cropify repository:

* `src/utils/imageProcessor.ts` — the Transform Engine (`ImageProcessor.cropImage`,
  `createRoundedRectPath`, `calculateRotatedSize`), modelled over `ℝ` with an
  explicit 2D affine-transform state mirroring the Canvas 2D context.
* `src/hooks/useBatchProcessor.ts` — the Batch Orchestrator (`processImage`,
  `executeBatch`, `startBatch`, `startResizeBatch`, `pauseBatch`, `cancelBatch`,
  `retryFailed`), modelled as a computable state machine.  External effects
  (image decode, engine invocation, format conversion) are oracles; the shared
  `AbortController` signal is modelled by a monotone cut-off on a global counter
  of signal reads.
* `BatchResizeView.calculateNewSize` (unnamed source part) — the UI's target
  size computation, over `ℚ`.

Numeric task parameters that the orchestrator merely copies and compares are
modelled over `ℚ` to keep the state machine decidable; the engine, which
interprets them numerically (trigonometry), works over `ℝ`.
-/

namespace Cropify

/-! ## Shared plain-data types (`src/types`, as used by the sources) -/

/-- Output format: `'jpg' | 'png' | 'webp'`. -/
inductive OutputFormat
  | jpg
  | png
  | webp
deriving DecidableEq, Repr

/-- `OutputSettings`: format, quality, filename options. -/
structure OutputSettings where
  format : OutputFormat
  quality : ℕ
  maintainOriginalName : Bool
  filenamePrefix : String
  filenameSuffix : String
deriving DecidableEq, Repr

/-- `CropParams`, parametric in the number type: the orchestrator copies the
fields verbatim (modelled with `α := ℚ`), the engine interprets them (`α := ℝ`).
Optional fields of the TS type (`rotation`, `flipHorizontal`, `flipVertical`,
`borderRadius`) are destructured with defaults `0` / `false` in
`ImageProcessor.cropImage`, so they are carried here with those defaults
already filled in. -/
structure CropParams (α : Type) where
  x : α
  y : α
  width : α
  height : α
  rotation : α
  flipHorizontal : Bool
  flipVertical : Bool
  borderRadius : α
deriving DecidableEq, Repr

/-- `ResizeSettings` / a `resizeTarget`: absolute pixel target for the crop
pipeline's post-scale step. -/
structure ResizeTarget (α : Type) where
  enabled : Bool
  width : α
  height : α
deriving DecidableEq, Repr

/-- `ProportionalResizeSettings`: scale-factor-driven resize. -/
structure ProportionalResizeSettings (α : Type) where
  scaleFactor : α
  mode : String
deriving DecidableEq, Repr

/-! ## Transform Engine (`src/utils/imageProcessor.ts`)

The Canvas 2D context is modelled by its current transformation matrix (CTM),
its clip region and its save/restore stack.  `ctx.translate/rotate/scale`
right-multiply the CTM; `ctx.clip()` records the current path together with
the CTM in effect.  A surface is a map from device pixels to optional pixel
values (`none` = transparent/unset); each device pixel is sampled at its
centre. -/

/-- 2D affine transform in canvas order: `(x, y) ↦ (a x + c y + e, b x + d y + f)`. -/
structure Affine where
  a : ℝ
  b : ℝ
  c : ℝ
  d : ℝ
  e : ℝ
  f : ℝ

namespace Affine

/-- Identity transform (fresh canvas context). -/
def identity : Affine := ⟨1, 0, 0, 1, 0, 0⟩

/-- Matrix product `M * N` (apply `N` in user space, then `M`). -/
def mul (M N : Affine) : Affine :=
  ⟨M.a * N.a + M.c * N.b, M.b * N.a + M.d * N.b,
   M.a * N.c + M.c * N.d, M.b * N.c + M.d * N.d,
   M.a * N.e + M.c * N.f + M.e, M.b * N.e + M.d * N.f + M.f⟩

/-- Apply the transform to a point. -/
def apply (M : Affine) (p : ℝ × ℝ) : ℝ × ℝ :=
  (M.a * p.1 + M.c * p.2 + M.e, M.b * p.1 + M.d * p.2 + M.f)

/-- `ctx.translate(x, y)` as a matrix. -/
def translateM (x y : ℝ) : Affine := ⟨1, 0, 0, 1, x, y⟩

/-- `ctx.rotate(θ)` (radians) as a matrix. -/
noncomputable def rotateM (θ : ℝ) : Affine :=
  ⟨Real.cos θ, Real.sin θ, -Real.sin θ, Real.cos θ, 0, 0⟩

/-- `ctx.scale(sx, sy)` as a matrix. -/
def scaleM (sx sy : ℝ) : Affine := ⟨sx, 0, 0, sy, 0, 0⟩

/-- Inverse transform (adjugate over the determinant); used to pull a device
pixel back to user space when rasterising `drawImage`. -/
noncomputable def inv (M : Affine) : Affine :=
  let det := M.a * M.d - M.b * M.c
  ⟨M.d / det, -M.b / det, -M.c / det, M.a / det,
   (M.c * M.f - M.d * M.e) / det, (M.b * M.e - M.a * M.f) / det⟩

end Affine

/-- A rounded-rectangle path as built by `createRoundedRectPath`: the record
keeps the rectangle and the corner radius *after* the clamp
`Math.min(radius, width / 2, height / 2)` performed inside that function. -/
structure RRect where
  x : ℝ
  y : ℝ
  w : ℝ
  h : ℝ
  r : ℝ

/-- `ImageProcessor.createRoundedRectPath(x, y, width, height, radius)`:
clamps the radius to `min(radius, width/2, height/2)` and traces the
rectangle with quadratic-Bézier corners of that radius. -/
noncomputable def createRoundedRectPath (x y width height radius : ℝ) : RRect :=
  ⟨x, y, width, height, min radius (min (width / 2) (height / 2))⟩

/-- The region enclosed by the path of `createRoundedRectPath`: the rectangle
minus, at each corner, the points on the outer side of the corner's quadratic
Bézier.  The corner Bézier from `(x+r, y+r')`-adjacent edge points with the
corner as control point is the curve `√(dx) + √(dy) = √r` in the local corner
coordinates, so a point of the corner square is kept iff
`√dx + √dy ≥ √r` where `dx`, `dy` are its distances to the two edges. -/
noncomputable def inRoundedRect (rr : RRect) (p : ℝ × ℝ) : Prop :=
  rr.x ≤ p.1 ∧ p.1 ≤ rr.x + rr.w ∧ rr.y ≤ p.2 ∧ p.2 ≤ rr.y + rr.h ∧
  (rr.x + rr.r ≤ p.1 ∨ rr.y + rr.r ≤ p.2 ∨
    Real.sqrt (p.1 - rr.x) + Real.sqrt (p.2 - rr.y) ≥ Real.sqrt rr.r) ∧
  (p.1 ≤ rr.x + rr.w - rr.r ∨ rr.y + rr.r ≤ p.2 ∨
    Real.sqrt (rr.x + rr.w - p.1) + Real.sqrt (p.2 - rr.y) ≥ Real.sqrt rr.r) ∧
  (rr.x + rr.r ≤ p.1 ∨ p.2 ≤ rr.y + rr.h - rr.r ∨
    Real.sqrt (p.1 - rr.x) + Real.sqrt (rr.y + rr.h - p.2) ≥ Real.sqrt rr.r) ∧
  (p.1 ≤ rr.x + rr.w - rr.r ∨ p.2 ≤ rr.y + rr.h - rr.r ∨
    Real.sqrt (rr.x + rr.w - p.1) + Real.sqrt (rr.y + rr.h - p.2) ≥ Real.sqrt rr.r)

/-- A clip region recorded by `ctx.clip()`: the path plus the CTM in effect
when the clip was established (the clip lives in device space through it). -/
structure ClipSpec where
  path : RRect
  ctm : Affine

/-- Membership of a device-space point in the (optional) clip region. -/
noncomputable def inClip : Option ClipSpec → ℝ × ℝ → Prop
  | none, _ => True
  | some cs, p => ∃ u, cs.ctm.apply u = p ∧ inRoundedRect cs.path u

/-- Canvas 2D context state: CTM, clip, save/restore stack.  The sources
establish at most one clip per `cropImage` call, so the clip is a single
optional region. -/
structure Ctx where
  transform : Affine
  clip : Option ClipSpec
  stack : List (Affine × Option ClipSpec)

namespace Ctx

/-- Fresh context of a newly sized canvas. -/
def initial : Ctx := ⟨Affine.identity, none, []⟩

/-- `ctx.save()`. -/
def save (s : Ctx) : Ctx := { s with stack := (s.transform, s.clip) :: s.stack }

/-- `ctx.restore()`. -/
def restore (s : Ctx) : Ctx :=
  match s.stack with
  | [] => s
  | (t, c) :: rest => ⟨t, c, rest⟩

/-- `ctx.translate(x, y)`. -/
def translate (s : Ctx) (x y : ℝ) : Ctx :=
  { s with transform := s.transform.mul (Affine.translateM x y) }

/-- `ctx.rotate(θ)`. -/
noncomputable def rotate (s : Ctx) (θ : ℝ) : Ctx :=
  { s with transform := s.transform.mul (Affine.rotateM θ) }

/-- `ctx.scale(sx, sy)`. -/
def scale (s : Ctx) (sx sy : ℝ) : Ctx :=
  { s with transform := s.transform.mul (Affine.scaleM sx sy) }

/-- `ctx.clip()` on a freshly traced rounded-rectangle path. -/
def clipRRect (s : Ctx) (rr : RRect) : Ctx :=
  { s with clip := some ⟨rr, s.transform⟩ }

end Ctx

/-- Decoded source raster (`HTMLImageElement`): dimensions plus pixel values. -/
structure SourceImage where
  width : ℕ
  height : ℕ
  pixel : ℤ → ℤ → ℕ

/-- Sample the source at a real coordinate (nearest pixel by floor); sampling
outside the source bounds yields `none` (transparent), per spec §4.1 step 6. -/
noncomputable def SourceImage.sample (img : SourceImage) (sx sy : ℝ) : Option ℕ :=
  if 0 ≤ sx ∧ sx < (img.width : ℝ) ∧ 0 ≤ sy ∧ sy < (img.height : ℝ) then
    some (img.pixel ⌊sx⌋ ⌊sy⌋)
  else none

/-- A canvas raster: device pixel `(i, j)` to optional pixel value. -/
def Surface : Type := ℤ → ℤ → Option ℕ

/-- The all-transparent surface (freshly sized / cleared canvas). -/
def Surface.blank : Surface := fun _ _ => none

open Classical in
/-- `ctx.drawImage(img, sx, sy, sw, sh, dx, dy, dw, dh)` under CTM `M` and
clip `clip`: a device pixel is repainted iff its centre, pulled back through
`M`, lies in the destination rectangle and the centre lies in the clip; the
painted value is the source sample at the corresponding source coordinate.
A transparent source sample leaves the previous surface value (source-over). -/
noncomputable def drawImageOn (surface : Surface) (M : Affine) (clip : Option ClipSpec)
    (img : SourceImage) (sx sy sw sh dx dy dw dh : ℝ) : Surface :=
  fun i j =>
    let cpt : ℝ × ℝ := ((i : ℝ) + 1 / 2, (j : ℝ) + 1 / 2)
    let u := M.inv.apply cpt
    if (dx ≤ u.1 ∧ u.1 < dx + dw ∧ dy ≤ u.2 ∧ u.2 < dy + dh) ∧ inClip clip cpt then
      match img.sample (sx + (u.1 - dx) * sw / dw) (sy + (u.2 - dy) * sh / dh) with
      | some v => some v
      | none => surface i j
    else surface i j

open Classical in
/-- The context-state part of `ImageProcessor.cropImage` (source lines 38–79):
canvas sizing, `save`, translate-to-centre, conditional rotate, flip scale,
and — when `borderRadius > 0` — the restore/save, rounded-rect clip and
re-application of the same transform sequence. -/
noncomputable def cropCtxAfterSetup (cropParams : CropParams ℝ) : Ctx :=
  let width := cropParams.width
  let height := cropParams.height
  let rotation := cropParams.rotation
  let scaleX : ℝ := if cropParams.flipHorizontal then -1 else 1
  let scaleY : ℝ := if cropParams.flipVertical then -1 else 1
  let s0 := Ctx.initial.save
  let s1 := s0.translate (width / 2) (height / 2)
  let s2 := if rotation ≠ 0 then s1.rotate (rotation * Real.pi / 180) else s1
  let s3 := s2.scale scaleX scaleY
  if cropParams.borderRadius > 0 then
    let s4 := s3.restore.save
    let actualRadius := min width height * cropParams.borderRadius / 2
    let s5 := s4.clipRRect (createRoundedRectPath 0 0 width height actualRadius)
    let s6 := s5.translate (width / 2) (height / 2)
    let s7 := if rotation ≠ 0 then s6.rotate (rotation * Real.pi / 180) else s6
    s7.scale scaleX scaleY
  else s3

/-- Result of `cropImage`: output surface dimensions and pixels. -/
structure CropOutput where
  width : ℝ
  height : ℝ
  surface : Surface

open Classical in
/-- Sampling from an intermediate canvas (the main canvas used as the source
of the second, resize `drawImage`). -/
noncomputable def sampleSurface (surf : Surface) (w h : ℝ) (sx sy : ℝ) : Option ℕ :=
  if 0 ≤ sx ∧ sx < w ∧ 0 ≤ sy ∧ sy < h then surf ⌊sx⌋ ⌊sy⌋ else none

open Classical in
/-- `ImageProcessor.cropImage(imageElement, cropParams, outputSettings?)`:
geometric compositing onto a `width × height` canvas, then — if
`outputSettings.resizeTarget.enabled` — resampling into a
`targetWidth × targetHeight` temporary canvas via
`tempCtx.drawImage(canvas, 0, 0, width, height, 0, 0, targetWidth, targetHeight)`. -/
noncomputable def cropImage (imageElement : SourceImage) (cropParams : CropParams ℝ)
    (resizeTarget : Option (ResizeTarget ℝ)) : CropOutput :=
  let width := cropParams.width
  let height := cropParams.height
  let s := cropCtxAfterSetup cropParams
  let drawn : Surface :=
    drawImageOn Surface.blank s.transform s.clip imageElement
      cropParams.x cropParams.y width height
      (-(width / 2)) (-(height / 2)) width height
  match resizeTarget with
  | some rt =>
    if rt.enabled then
      let resized : Surface := fun i j =>
        let cpt : ℝ × ℝ := ((i : ℝ) + 1 / 2, (j : ℝ) + 1 / 2)
        if 0 ≤ cpt.1 ∧ cpt.1 < rt.width ∧ 0 ≤ cpt.2 ∧ cpt.2 < rt.height then
          sampleSurface drawn width height
            (cpt.1 * width / rt.width) (cpt.2 * height / rt.height)
        else none
      ⟨rt.width, rt.height, resized⟩
    else ⟨width, height, drawn⟩
  | none => ⟨width, height, drawn⟩

/-- `ImageProcessor.calculateRotatedSize(width, height, rotation)`: bounding
box of the rotated rectangle, both dimensions rounded up (`Math.ceil`). -/
noncomputable def calculateRotatedSize (width height rotation : ℝ) : ℤ × ℤ :=
  let radians := rotation * Real.pi / 180
  let cosv := |Real.cos radians|
  let sinv := |Real.sin radians|
  let rotatedWidth := width * cosv + height * sinv
  let rotatedHeight := width * sinv + height * cosv
  (⌈rotatedWidth⌉, ⌈rotatedHeight⌉)

/-! ## Proportional resize -/

/-- `BatchResizeView.calculateNewSize(width, height, imageScaleFactor?)` from
the batch-resize view source: `factor = imageScaleFactor || scaleFactor`
(JS truthiness: a `0` override falls back to the default), output
`(Math.round(width / factor), Math.round(height / factor))`. -/
def calculateNewSize (scaleFactor : ℚ) (width height : ℚ)
    (imageScaleFactor : Option ℚ) : ℤ × ℤ :=
  let factor := match imageScaleFactor with
    | some f => if f = 0 then scaleFactor else f
    | none => scaleFactor
  (round (width / factor), round (height / factor))

/-- Engine resize error taxonomy (spec §7). -/
inductive ResizeError
  | invalidScaleFactor
deriving DecidableEq, Repr

/-- Modelled from the spec: `ImageProcessor.resizeImageProportionally`, invoked
by `useBatchProcessor.processImage` for `resize` tasks, is not among the
provided sources; only its caller and the UI mirror `calculateNewSize` are.
Spec §4.1: `newWidth = round(source.width / scaleFactor)`,
`newHeight = round(source.height / scaleFactor)`, both floored at 1; fails
with `InvalidScaleFactor` if `scaleFactor ≤ 0`.  This definition computes the
output dimensions of that operation. -/
def resizeProportionalDims (width height : ℚ) (scaleFactor : ℚ) :
    Except ResizeError (ℤ × ℤ) :=
  if scaleFactor ≤ 0 then .error .invalidScaleFactor
  else .ok (max 1 (round (width / scaleFactor)), max 1 (round (height / scaleFactor)))

/-! ## Batch Orchestrator (`src/hooks/useBatchProcessor.ts`)

External effects are oracles: whether the decode of an image's URL succeeds,
and whether the engine / format-conversion steps succeed for a task.  The
shared `AbortController` signal is read at explicit checkpoints; reads are
numbered globally and the signal is aborted from read index `t` on when the
user paused/cancelled at time `t` (`abortTime = some t`; `none` = no
pause/cancel during the run). -/

/-- `ProcessStatus`. -/
inductive ProcessStatus
  | pending
  | processing
  | completed
  | failed
  | cancelled
deriving DecidableEq, Repr

/-- `processType ∈ {crop, resize}`. -/
inductive ProcessType
  | crop
  | resize
deriving DecidableEq, Repr

/-- `ProcessTask`.  `processedBlob` stands for the result handle
(`processedBlob`/`processedUrl` in the source); ids are numbers. -/
structure ProcessTask where
  id : ℕ
  imageId : ℕ
  status : ProcessStatus
  progress : ℕ
  processType : ProcessType
  cropParams : CropParams ℚ
  resizeSettings : Option (ProportionalResizeSettings ℚ)
  outputSettings : OutputSettings
  error : Option String
  processedBlob : Option ℕ
deriving DecidableEq, Repr

/-- `ImageFile`, restricted to the fields the orchestrator reads. -/
structure ImageFile where
  id : ℕ
  name : String
  width : ℕ
  height : ℕ
  cropParams : Option (CropParams ℚ)
  resizeTarget : Option (ResizeTarget ℚ)
  batchResizeScaleFactor : Option ℚ
deriving DecidableEq, Repr

/-- `AppError` as reported through `addError` (the generated id and the
timestamp are environment-supplied and carry no information for the claims;
`details` is the `文件: ${image.name}` payload reduced to the image name). -/
structure AppError where
  errType : String
  message : String
  details : String
deriving DecidableEq, Repr

/-- Outcomes of the external effects during one run: decode keyed by the
image id, engine and format conversion keyed by the task id. -/
structure Oracle where
  decodeOk : ℕ → Bool
  engineOk : ℕ → Bool
  encodeOk : ℕ → Bool

/-- Whether the shared abort signal reads as aborted at global read index `k`. -/
def signalAborted (abortTime : Option ℕ) (k : ℕ) : Bool :=
  match abortTime with
  | none => false
  | some t => t ≤ k

/-- A status transition recorded by `updateTask`: the read-counter value at
the abort check that guarded it, the task id, and the status written. -/
structure StatusEvent where
  reads : ℕ
  taskId : ℕ
  status : ProcessStatus
deriving DecidableEq, Repr

/-- Result of one `processImage` call: the final value of the task (the
composition of its `updateTask` partial updates), the error events it
reported, its status-transition trace, and the advanced read counter. -/
structure PIResult where
  task : ProcessTask
  events : List AppError
  trace : List StatusEvent
  reads : ℕ
deriving Repr

/-- Error messages thrown by the stages (source strings transliterated). -/
def decodeFailedMsg : String := "图片加载失败"

/-- Engine-stage failure message (blob creation failed in `cropImage` /
`resizeImageProportionally`). -/
def engineFailedMsg : String := "图片处理失败"

/-- Format-conversion failure message (`convertBlobFormat`). -/
def convertFailedMsg : String := "格式转换失败"

/-- The batch-level `PROCESSING_FAILED` message from `ERROR_MESSAGES`. -/
def processingFailedMsg : String := "PROCESSING_FAILED"

/-- The single error event reported for a failed task. -/
def taskErrorEvent (image : ImageFile) : AppError :=
  ⟨"processing", processingFailedMsg, image.name⟩

/-- `processImage(image, task, abortSignal)` (source lines 41–133).  Abort
checks happen: before anything (line 47), after the decode (line 68), before
the engine step (line 79) and after the engine step (line 101); each observed
abort sets the task `cancelled` and returns.  Any throw from decode, engine
or conversion is caught by the single `catch`, which sets the task `failed`
with the error message and reports exactly one error event.  Success sets
`completed`, progress 100, with the result blob. -/
def processImage (image : ImageFile) (task : ProcessTask) (o : Oracle)
    (abortTime : Option ℕ) (reads : ℕ) : PIResult :=
  if signalAborted abortTime reads then
    ⟨{ task with status := .cancelled }, [],
      [⟨reads, task.id, .cancelled⟩], reads + 1⟩
  else
    let t1 := { task with status := .processing, progress := 0 }
    let ev1 : StatusEvent := ⟨reads, task.id, .processing⟩
    if ¬ o.decodeOk image.id then
      ⟨{ t1 with status := .failed, error := some decodeFailedMsg, progress := 0 },
        [taskErrorEvent image], [ev1, ⟨reads + 1, task.id, .failed⟩], reads + 1⟩
    else if signalAborted abortTime (reads + 1) then
      ⟨{ t1 with status := .cancelled }, [],
        [ev1, ⟨reads + 1, task.id, .cancelled⟩], reads + 2⟩
    else
      let t2 := { t1 with progress := 50 }
      if signalAborted abortTime (reads + 2) then
        ⟨{ t2 with status := .cancelled }, [],
          [ev1, ⟨reads + 2, task.id, .cancelled⟩], reads + 3⟩
      else if ¬ o.engineOk task.id then
        ⟨{ t2 with status := .failed, error := some engineFailedMsg, progress := 0 },
          [taskErrorEvent image], [ev1, ⟨reads + 2, task.id, .failed⟩], reads + 3⟩
      else
        let t3 := { t2 with progress := 75 }
        if signalAborted abortTime (reads + 3) then
          ⟨{ t3 with status := .cancelled }, [],
            [ev1, ⟨reads + 3, task.id, .cancelled⟩], reads + 4⟩
        else if ¬ o.encodeOk task.id then
          ⟨{ t3 with status := .failed, error := some convertFailedMsg, progress := 0 },
            [taskErrorEvent image], [ev1, ⟨reads + 3, task.id, .failed⟩], reads + 4⟩
        else
          let t4 := { t3 with status := ProcessStatus.completed, progress := 100 }
          ⟨{ t4 with processedBlob := some task.id },
            [], [ev1, ⟨reads + 3, task.id, .completed⟩], reads + 4⟩

/-- `updateTask`-style replacement: every task whose id matches is replaced by
the update's final snapshot. -/
def applyUpdate (tasks : List ProcessTask) (u : ℕ × ProcessTask) : List ProcessTask :=
  tasks.map fun t => if t.id = u.1 then u.2 else t

/-- The `for (const task of pendingTasks)` loop of `executeBatch` (source
lines 188–199): before each task the loop re-checks
`processingRef.current` / the abort signal and breaks if the run was
paused/cancelled; a task whose image is gone is skipped (`continue`);
otherwise `processImage` runs and its updates land in the shared task list. -/
def runPending (images : List ImageFile) (o : Oracle) (abortTime : Option ℕ) :
    List ProcessTask → List ProcessTask → ℕ →
    List ProcessTask × List AppError × List StatusEvent
  | allTasks, [], _ => (allTasks, [], [])
  | allTasks, task :: rest, reads =>
    if signalAborted abortTime reads then (allTasks, [], [])
    else
      match images.find? (fun img => img.id = task.imageId) with
      | none => runPending images o abortTime allTasks rest (reads + 1)
      | some image =>
        let r := processImage image task o abortTime (reads + 1)
        let res := runPending images o abortTime
          (applyUpdate allTasks (task.id, r.task)) rest r.reads
        (res.1, r.events ++ res.2.1, r.trace ++ res.2.2)

/-- Orchestrator state owned by the hook: the task list and the
`isProcessing` flag. -/
structure BatchState where
  tasks : List ProcessTask
  isProcessing : Bool
deriving DecidableEq, Repr

/-- Result of one batch run: final state, reported error events, and the
status-transition trace. -/
structure RunResult where
  tasks : List ProcessTask
  isProcessing : Bool
  events : List AppError
  trace : List StatusEvent
deriving Repr

/-- `executeBatch(newTasks, images)` (source lines 174–215): no-op while a
run is in flight (`if (isProcessing) return`); otherwise stores `newTasks`,
filters the `pending`/`failed` ones and processes them in list order; the
`finally` block always clears `isProcessing`. -/
def executeBatch (st : BatchState) (newTasks : List ProcessTask)
    (images : List ImageFile) (o : Oracle) (abortTime : Option ℕ) : RunResult :=
  if st.isProcessing then ⟨st.tasks, st.isProcessing, [], []⟩
  else
    let pendingTasks := newTasks.filter fun task =>
      task.status = ProcessStatus.pending ∨ task.status = ProcessStatus.failed
    let res := runPending images o abortTime newTasks pendingTasks 0
    ⟨res.1, false, res.2.1, res.2.2⟩

/-- The task list built by `startBatch` (source lines 224–237): per image,
an existing `(imageId, 'crop')` task that is `completed` is returned as-is;
otherwise a fresh `pending` task is created, keeping the existing task's id
when there is one (`existingTask?.id || generateId()`) and taking the image's
own saved crop params over the batch-wide ones.  `genId` supplies the fresh
ids, keyed by the image. -/
def buildCropTasks (genId : ℕ → ℕ) (tasks : List ProcessTask)
    (images : List ImageFile) (cropParams : CropParams ℚ)
    (outputSettings : OutputSettings) : List ProcessTask :=
  images.map fun image =>
    let existingTask := tasks.find? fun t =>
      t.imageId = image.id ∧ t.processType = ProcessType.crop
    match existingTask with
    | some e =>
      if e.status = ProcessStatus.completed then e
      else
        { id := e.id, imageId := image.id, status := .pending, progress := 0,
          processType := .crop,
          cropParams := image.cropParams.getD cropParams,
          resizeSettings := none, outputSettings := outputSettings,
          error := none, processedBlob := none }
    | none =>
      { id := genId image.id, imageId := image.id, status := .pending, progress := 0,
        processType := .crop,
        cropParams := image.cropParams.getD cropParams,
        resizeSettings := none, outputSettings := outputSettings,
        error := none, processedBlob := none }

/-- The task list built by `startResizeBatch` (source lines 248–265): always
a fresh `pending` task per image with a newly generated id (no lookup of
existing tasks); the scale factor is the image's own
`batchResizeScaleFactor` when truthy, else the batch default; `cropParams`
is the `{width: 0, height: 0, x: 0, y: 0}` placeholder. -/
def buildResizeTasks (genId : ℕ → ℕ) (images : List ImageFile)
    (resizeSettings : ProportionalResizeSettings ℚ)
    (outputSettings : OutputSettings) : List ProcessTask :=
  images.map fun image =>
    let effectiveResizeSettings := match image.batchResizeScaleFactor with
      | some f => if f = 0 then resizeSettings
                  else { resizeSettings with scaleFactor := f }
      | none => resizeSettings
    { id := genId image.id, imageId := image.id, status := .pending, progress := 0,
      processType := .resize,
      cropParams := ⟨0, 0, 0, 0, 0, false, false, 0⟩,
      resizeSettings := some effectiveResizeSettings,
      outputSettings := outputSettings, error := none, processedBlob := none }

/-- `startBatch(images, cropParams, outputSettings)`. -/
def startBatch (genId : ℕ → ℕ) (st : BatchState) (images : List ImageFile)
    (cropParams : CropParams ℚ) (outputSettings : OutputSettings)
    (o : Oracle) (abortTime : Option ℕ) : RunResult :=
  executeBatch st (buildCropTasks genId st.tasks images cropParams outputSettings)
    images o abortTime

/-- `startResizeBatch(images, resizeSettings, outputSettings)`. -/
def startResizeBatch (genId : ℕ → ℕ) (st : BatchState) (images : List ImageFile)
    (resizeSettings : ProportionalResizeSettings ℚ) (outputSettings : OutputSettings)
    (o : Oracle) (abortTime : Option ℕ) : RunResult :=
  executeBatch st (buildResizeTasks genId images resizeSettings outputSettings)
    images o abortTime

/-- `retryFailed(images, cropParams, outputSettings)` (source lines 286–294):
the source keeps the original logic and simply calls `startBatch`. -/
def retryFailed (genId : ℕ → ℕ) (st : BatchState) (images : List ImageFile)
    (cropParams : CropParams ℚ) (outputSettings : OutputSettings)
    (o : Oracle) (abortTime : Option ℕ) : RunResult :=
  startBatch genId st images cropParams outputSettings o abortTime

/-- `pauseBatch()`: aborts the signal (modelled by the run's `abortTime`) and
clears `isProcessing`, preserving the task list. -/
def pauseBatch (st : BatchState) : BatchState :=
  { st with isProcessing := false }

/-- `cancelBatch()`: additionally clears the task list. -/
def cancelBatch (_ : BatchState) : BatchState :=
  ⟨[], false⟩

/-! ## Derived descriptions and concrete inputs used by the theorems -/

/-- The image `executeBatch` resolves for a task
(`images.find(img => img.id === task.imageId)`). -/
def imageFor (images : List ImageFile) (t : ProcessTask) : ImageFile :=
  (images.find? fun img => img.id = t.imageId).getD ⟨0, "", 0, 0, none, none, none⟩

/-- Whether all three effectful stages of a task succeed. -/
def taskOk (o : Oracle) (t : ProcessTask) : Bool :=
  o.decodeOk t.imageId && o.engineOk t.id && o.encodeOk t.id

/-- The final value `processImage` leaves on a task when no abort is observed:
`completed` with the result when all stages succeed, else `failed` with the
first failing stage's message. -/
def taskOutcome (o : Oracle) (image : ImageFile) (task : ProcessTask) : ProcessTask :=
  if ¬ o.decodeOk image.id then
    { task with status := .failed, error := some decodeFailedMsg, progress := 0 }
  else if ¬ o.engineOk task.id then
    { task with status := .failed, error := some engineFailedMsg, progress := 0 }
  else if ¬ o.encodeOk task.id then
    { task with status := .failed, error := some convertFailedMsg, progress := 0 }
  else
    { task with status := .completed, progress := 100, processedBlob := some task.id }

/-- Sample crop parameters (concrete instantiations). -/
def sampleCropParams : CropParams ℚ := ⟨0, 0, 100, 100, 0, false, false, 0⟩

/-- Sample output settings (concrete instantiations). -/
def sampleOutput : OutputSettings := ⟨.png, 9, true, "", ""⟩

/-- Sample image with a given id (concrete instantiations). -/
def sampleImage (i : ℕ) : ImageFile := ⟨i, s!"img{i}", 100, 100, none, none, none⟩

/-- Sample pending crop task with matching image (concrete instantiations). -/
def samplePendingTask (i : ℕ) : ProcessTask :=
  ⟨i, i, .pending, 0, .crop, sampleCropParams, none, sampleOutput, none, none⟩

/-- Oracle with all stages succeeding. -/
def allOkOracle : Oracle := ⟨fun _ => true, fun _ => true, fun _ => true⟩

/-- Oracle with the decode of image 3 failing and everything else succeeding. -/
def decode3FailsOracle : Oracle := ⟨fun i => decide (i ≠ 3), fun _ => true, fun _ => true⟩

/-- The spec's failure-isolation scenario: a batch of five images. -/
def fiveImages : List ImageFile :=
  [sampleImage 1, sampleImage 2, sampleImage 3, sampleImage 4, sampleImage 5]

/-- The spec's failure-isolation scenario: five pending tasks. -/
def fiveTasks : List ProcessTask :=
  [samplePendingTask 1, samplePendingTask 2, samplePendingTask 3,
   samplePendingTask 4, samplePendingTask 5]

/-- Concrete source raster for the engine scenarios. -/
def sampleSource : SourceImage := ⟨100, 200, fun i j => (i + j).toNat⟩

/-- Concrete geometry with no rotation/flip/radius. -/
noncomputable def cropNoTransform : CropParams ℝ := ⟨0, 0, 100, 200, 0, false, false, 0⟩

/-- Concrete geometry with a positive corner-radius fraction. -/
noncomputable def cropRounded : CropParams ℝ := ⟨0, 0, 100, 200, 0, false, false, 1 / 2⟩

/-- A crop task for image 1 that was cancelled in a previous run. -/
def cancelledCropTask : ProcessTask :=
  ⟨7, 1, .cancelled, 0, .crop, sampleCropParams, none, sampleOutput, none, none⟩

/-- A resize task for image 1 that completed in a previous run. -/
def completedResizeTask : ProcessTask :=
  ⟨5, 1, .completed, 100, .resize, ⟨0, 0, 0, 0, 0, false, false, 0⟩,
   some ⟨3 / 2, "scale_down"⟩, sampleOutput, none, some 5⟩

/-- Default scale settings used in the concrete resize runs. -/
def sampleResizeSettings : ProportionalResizeSettings ℚ := ⟨3 / 2, "scale_down"⟩

/-- A crop task for image 1 that completed in a previous run. -/
def completedCropTask : ProcessTask :=
  ⟨11, 1, .completed, 100, .crop, sampleCropParams, none, sampleOutput, none, some 11⟩

/-! ## Theorems -/

/-- `Math.round` (rounding half towards `+∞`) is monotone. -/
theorem round_mono_rat {x y : ℚ} (h : x ≤ y) : round x ≤ round y := by
  simp only [round_eq]
  exact Int.floor_mono (by linarith)

/-- C5: proportional resize output dimensions are
`round(source.width / scaleFactor) × round(source.height / scaleFactor)`,
each floored at 1 (and agree with the UI's `calculateNewSize` before the
floor); they are componentwise antitone in the scale factor; and a 3000×3000
source at scale factor 1.5 yields exactly 2000×2000. -/
theorem resizeProportional_dims_spec :
    (∀ w h f : ℚ, 0 < f →
      resizeProportionalDims w h f =
        .ok (max 1 (calculateNewSize f w h none).1,
             max 1 (calculateNewSize f w h none).2)) ∧
    (∀ w h f₁ f₂ : ℚ, 0 ≤ w → 0 ≤ h → 0 < f₁ → f₁ < f₂ →
      ∀ d₁ d₂ : ℤ × ℤ, resizeProportionalDims w h f₁ = .ok d₁ →
        resizeProportionalDims w h f₂ = .ok d₂ → d₂.1 ≤ d₁.1 ∧ d₂.2 ≤ d₁.2) ∧
    resizeProportionalDims 3000 3000 (3 / 2) = .ok (2000, 2000) := by
  refine ⟨fun w h f hf => ?_, fun w h f₁ f₂ hw hh h1 h12 d₁ d₂ hd₁ hd₂ => ?_, ?_⟩
  · rw [resizeProportionalDims, if_neg (not_le.mpr hf)]
    rfl
  · rw [resizeProportionalDims, if_neg (not_le.mpr h1)] at hd₁
    rw [resizeProportionalDims, if_neg (not_le.mpr (h1.trans h12))] at hd₂
    simp only [Except.ok.injEq] at hd₁ hd₂
    subst hd₁; subst hd₂
    constructor
    · exact max_le_max le_rfl (round_mono_rat (by gcongr))
    · exact max_le_max le_rfl (round_mono_rat (by gcongr))
  · norm_num [resizeProportionalDims, round_eq]

/-- C5 witness: the formula conjunct instantiated at a 30×20 source with
scale factor 2. -/
theorem resizeProportional_dims_spec_witness :
    (0 : ℚ) < 2 ∧
    resizeProportionalDims 30 20 2 =
      .ok (max 1 (calculateNewSize 2 30 20 none).1,
           max 1 (calculateNewSize 2 30 20 none).2) :=
  ⟨by norm_num, resizeProportional_dims_spec.1 30 20 2 (by norm_num)⟩

/-- C6: the proportional-resize operation fails with `InvalidScaleFactor` for
every `scaleFactor ≤ 0` and never produces that error for `scaleFactor > 0`. -/
theorem resizeProportional_rejects_nonpositive :
    ∀ w h f : ℚ,
      (f ≤ 0 → resizeProportionalDims w h f = .error .invalidScaleFactor) ∧
      (0 < f → ∃ d : ℤ × ℤ, resizeProportionalDims w h f = .ok d) := by
  intro w h f
  constructor
  · intro hf
    simp [resizeProportionalDims, hf]
  · intro hf
    exact ⟨(max 1 (round (w / f)), max 1 (round (h / f))),
      by rw [resizeProportionalDims, if_neg (not_le.mpr hf)]⟩

/-- C6 witness: rejection at scale factor −1, success at scale factor 2. -/
theorem resizeProportional_rejects_nonpositive_witness :
    ((-1 : ℚ) ≤ 0 ∧ resizeProportionalDims 10 10 (-1) = .error .invalidScaleFactor) ∧
    ((0 : ℚ) < 2 ∧ ∃ d : ℤ × ℤ, resizeProportionalDims 10 10 2 = .ok d) :=
  ⟨⟨by norm_num, (resizeProportional_rejects_nonpositive 10 10 (-1)).1 (by norm_num)⟩,
   ⟨by norm_num, (resizeProportional_rejects_nonpositive 10 10 2).2 (by norm_num)⟩⟩

/-- C9: `calculateRotatedSize` returns exactly
`(ceil(w·|cos θ| + h·|sin θ|), ceil(w·|sin θ| + h·|cos θ|))` with `θ`
converted to radians; in particular `(w, h)` at 0° and `(h, w)` at 90°. -/
theorem calculateRotatedSize_spec :
    (∀ w h θ : ℝ, calculateRotatedSize w h θ =
      (⌈w * |Real.cos (θ * Real.pi / 180)| + h * |Real.sin (θ * Real.pi / 180)|⌉,
       ⌈w * |Real.sin (θ * Real.pi / 180)| + h * |Real.cos (θ * Real.pi / 180)|⌉)) ∧
    (∀ w h : ℤ, calculateRotatedSize (w : ℝ) (h : ℝ) 0 = (w, h)) ∧
    (∀ w h : ℤ, calculateRotatedSize (w : ℝ) (h : ℝ) 90 = (h, w)) := by
  refine ⟨fun w h θ => rfl, fun w h => ?_, fun w h => ?_⟩
  · simp [calculateRotatedSize]
  · have h90 : (90 : ℝ) * Real.pi / 180 = Real.pi / 2 := by ring
    simp [calculateRotatedSize, h90, Real.cos_pi_div_two, Real.sin_pi_div_two]

/-- C10: starting a batch while one is already processing is a no-op — the
stored tasks, the `isProcessing` flag and the error/trace streams are all
unchanged, for both `startBatch` and `startResizeBatch`. -/
theorem startBatch_noop_while_processing (genId : ℕ → ℕ) (st : BatchState)
    (images : List ImageFile) (cropParams : CropParams ℚ)
    (resizeSettings : ProportionalResizeSettings ℚ) (outputSettings : OutputSettings)
    (o : Oracle) (abortTime : Option ℕ)
    (h : st.isProcessing = true) :
    startBatch genId st images cropParams outputSettings o abortTime =
      ⟨st.tasks, true, [], []⟩ ∧
    startResizeBatch genId st images resizeSettings outputSettings o abortTime =
      ⟨st.tasks, true, [], []⟩ := by
  constructor <;> simp [startBatch, startResizeBatch, executeBatch, h]

/-- C10 witness: a concrete in-flight state is left untouched. -/
theorem startBatch_noop_while_processing_witness :
    (BatchState.mk fiveTasks true).isProcessing = true ∧
    startBatch id ⟨fiveTasks, true⟩ fiveImages sampleCropParams sampleOutput
      allOkOracle none = ⟨fiveTasks, true, [], []⟩ :=
  ⟨rfl, (startBatch_noop_while_processing id ⟨fiveTasks, true⟩ fiveImages sampleCropParams
      ⟨3 / 2, "scale_down"⟩ sampleOutput allOkOracle none rfl).1⟩

/-- C3 counterexample: a cancelled crop task is NOT left untouched by
`retryFailed` — it is reset to pending and re-processed (here ending
completed), so the claim "leaves every cancelled task untouched" fails. -/
theorem retryFailed_cancelled_counterexample :
    cancelledCropTask.status = ProcessStatus.cancelled ∧
    (retryFailed (fun _ => 99) ⟨[cancelledCropTask], false⟩ [sampleImage 1]
        sampleCropParams sampleOutput allOkOracle none).tasks.map
      (fun t => (t.id, t.status)) = [(7, ProcessStatus.completed)] := by
  decide

/-- C3 (amended): `retryFailed` delegates to `startBatch`; the rebuilt list
keeps every completed crop task unchanged and resets every other image's
task to `pending` — including cancelled ones — keeping the existing task's
id when there is one and a fresh id otherwise. -/
theorem retryFailed_rebuild_spec (genId : ℕ → ℕ) (st : BatchState)
    (images : List ImageFile) (cropParams : CropParams ℚ)
    (outputSettings : OutputSettings) (o : Oracle) (abortTime : Option ℕ) :
    retryFailed genId st images cropParams outputSettings o abortTime =
      startBatch genId st images cropParams outputSettings o abortTime ∧
    List.Forall₂ (fun image t =>
      match st.tasks.find? (fun tk =>
          tk.imageId = image.id ∧ tk.processType = ProcessType.crop) with
      | some e =>
        if e.status = ProcessStatus.completed then t = e
        else t.status = ProcessStatus.pending ∧ t.id = e.id ∧
          t.error = none ∧ t.processedBlob = none
      | none => t.status = ProcessStatus.pending ∧ t.id = genId image.id)
      images (buildCropTasks genId st.tasks images cropParams outputSettings) := by
  refine ⟨rfl, ?_⟩
  induction images with
  | nil => exact List.Forall₂.nil
  | cons image rest ih =>
    refine List.Forall₂.cons ?_ ih
    simp only [buildCropTasks]
    cases hfind : st.tasks.find? (fun tk =>
        tk.imageId = image.id ∧ tk.processType = ProcessType.crop) with
    | none => simp [hfind]
    | some e =>
      by_cases he : e.status = ProcessStatus.completed <;> simp [hfind, he]

/-- C3 witness: the delegation conjunct at a concrete cancelled-task state. -/
theorem retryFailed_rebuild_spec_witness :
    retryFailed (fun _ => 99) ⟨[cancelledCropTask], false⟩ [sampleImage 1]
        sampleCropParams sampleOutput allOkOracle none =
      startBatch (fun _ => 99) ⟨[cancelledCropTask], false⟩ [sampleImage 1]
        sampleCropParams sampleOutput allOkOracle none :=
  (retryFailed_rebuild_spec (fun _ => 99) ⟨[cancelledCropTask], false⟩ [sampleImage 1]
    sampleCropParams sampleOutput allOkOracle none).1

/-- C4 counterexample: an existing completed `(imageId, resize)` task is NOT
reused by `startResizeBatch` — the rebuilt batch holds a fresh task with a
new id and the image is re-processed (the trace shows a new
processing→completed transition), so the "resize alike" half of the claim
fails. -/
theorem startResizeBatch_no_reuse_counterexample :
    completedResizeTask.status = ProcessStatus.completed ∧
    completedResizeTask.imageId = (sampleImage 1).id ∧
    completedResizeTask.processType = ProcessType.resize ∧
    (startResizeBatch (fun _ => 99) ⟨[completedResizeTask], false⟩ [sampleImage 1]
        sampleResizeSettings sampleOutput allOkOracle none).tasks.map
      (fun t => (t.id, t.status)) = [(99, ProcessStatus.completed)] ∧
    (startResizeBatch (fun _ => 99) ⟨[completedResizeTask], false⟩ [sampleImage 1]
        sampleResizeSettings sampleOutput allOkOracle none).trace.map
      (fun ev => (ev.taskId, ev.status)) =
      [(99, ProcessStatus.processing), (99, ProcessStatus.completed)] := by
  decide

/-! ### Helper lemmas about `processImage` and `runPending` -/

/-- `taskOutcome` never changes the task id. -/
theorem taskOutcome_id (o : Oracle) (image : ImageFile) (task : ProcessTask) :
    (taskOutcome o image task).id = task.id := by
  unfold taskOutcome
  split <;> try rfl
  split <;> try rfl
  split <;> rfl

/-- With no abort, `processImage` leaves exactly `taskOutcome` on the task. -/
theorem processImage_none_task (image : ImageFile) (task : ProcessTask)
    (o : Oracle) (reads : ℕ) :
    (processImage image task o none reads).task = taskOutcome o image task := by
  by_cases h1 : o.decodeOk image.id <;>
    by_cases h2 : o.engineOk task.id <;>
    by_cases h3 : o.encodeOk task.id <;>
    simp [processImage, taskOutcome, signalAborted, h1, h2, h3]

/-- With no abort, `processImage` reports exactly one error event when a
stage fails and none otherwise. -/
theorem processImage_none_events (image : ImageFile) (task : ProcessTask)
    (o : Oracle) (reads : ℕ) :
    (processImage image task o none reads).events =
      if o.decodeOk image.id && o.engineOk task.id && o.encodeOk task.id then []
      else [taskErrorEvent image] := by
  by_cases h1 : o.decodeOk image.id <;>
    by_cases h2 : o.engineOk task.id <;>
    by_cases h3 : o.encodeOk task.id <;>
    simp [processImage, signalAborted, h1, h2, h3]

/-- Every trace event of `processImage` carries the task's id. -/
theorem processImage_trace_taskId (image : ImageFile) (task : ProcessTask)
    (o : Oracle) (abortTime : Option ℕ) (reads : ℕ) :
    ∀ ev ∈ (processImage image task o abortTime reads).trace, ev.taskId = task.id := by
  intro ev hev
  unfold processImage at hev
  split at hev
  · simp only [List.mem_singleton] at hev
    rw [hev]
  · split at hev
    · simp only [List.mem_cons, List.mem_singleton, List.not_mem_nil, or_false] at hev
      rcases hev with h | h <;> rw [h]
    · split at hev
      · simp only [List.mem_cons, List.mem_singleton, List.not_mem_nil, or_false] at hev
        rcases hev with h | h <;> rw [h]
      · split at hev
        · simp only [List.mem_cons, List.mem_singleton, List.not_mem_nil, or_false] at hev
          rcases hev with h | h <;> rw [h]
        · split at hev
          · simp only [List.mem_cons, List.mem_singleton, List.not_mem_nil,
              or_false] at hev
            rcases hev with h | h <;> rw [h]
          · split at hev
            · simp only [List.mem_cons, List.mem_singleton, List.not_mem_nil,
                or_false] at hev
              rcases hev with h | h <;> rw [h]
            · split at hev <;>
              · simp only [List.mem_cons, List.mem_singleton, List.not_mem_nil,
                  or_false] at hev
                rcases hev with h | h <;> rw [h]

/-- A `processing` transition is only ever recorded at a read index where the
abort signal was just observed non-aborted. -/
theorem processImage_trace_processing (image : ImageFile) (task : ProcessTask)
    (o : Oracle) (abortTime : Option ℕ) (reads : ℕ) :
    ∀ ev ∈ (processImage image task o abortTime reads).trace,
      ev.status = ProcessStatus.processing → signalAborted abortTime ev.reads = false := by
  intro ev hev hst
  unfold processImage at hev
  split at hev
  · simp only [List.mem_singleton] at hev
    rw [hev] at hst
    exact absurd hst (by simp)
  · rename_i habort
    have habort' : signalAborted abortTime reads = false := by
      simpa using habort
    split at hev <;>
      [skip; split at hev <;>
        [skip; split at hev <;>
          [skip; split at hev <;>
            [skip; split at hev <;>
              [skip; split at hev]]]]] <;>
    · simp only [List.mem_cons, List.mem_singleton, List.not_mem_nil, or_false] at hev
      rcases hev with h | h <;> rw [h] at hst ⊢ <;>
        simp_all

/-- A task observing the abort signal at any one of its four checkpoints ends
`cancelled`: the four conjuncts cover the pre-decode, post-decode, pre-engine
and post-engine checkpoints (the later ones need the earlier effectful stages
not to have thrown, or the task would already have ended `failed`). -/
theorem processImage_abort_cancelled (image : ImageFile) (task : ProcessTask)
    (o : Oracle) (abortTime : Option ℕ) (reads : ℕ) :
    (signalAborted abortTime reads = true →
      (processImage image task o abortTime reads).task.status = ProcessStatus.cancelled) ∧
    (o.decodeOk image.id = true → signalAborted abortTime (reads + 1) = true →
      (processImage image task o abortTime reads).task.status = ProcessStatus.cancelled) ∧
    (o.decodeOk image.id = true → signalAborted abortTime (reads + 2) = true →
      (processImage image task o abortTime reads).task.status = ProcessStatus.cancelled) ∧
    (o.decodeOk image.id = true → o.engineOk task.id = true →
      signalAborted abortTime (reads + 3) = true →
      (processImage image task o abortTime reads).task.status = ProcessStatus.cancelled) := by
  by_cases a0 : signalAborted abortTime reads = true
  · refine ⟨fun _ => ?_, fun _ _ => ?_, fun _ _ => ?_, fun _ _ _ => ?_⟩ <;>
      simp [processImage, a0]
  · refine ⟨fun h => absurd h a0, ?_, ?_, ?_⟩
    · intro hdec a1
      simp [processImage, a0, hdec, a1]
    · intro hdec a2
      by_cases a1 : signalAborted abortTime (reads + 1) = true
      · simp [processImage, a0, hdec, a1]
      · simp [processImage, a0, hdec, a1, a2]
    · intro hdec heng a3
      by_cases a1 : signalAborted abortTime (reads + 1) = true
      · simp [processImage, a0, hdec, a1]
      · by_cases a2 : signalAborted abortTime (reads + 2) = true
        · simp [processImage, a0, hdec, a1, a2]
        · simp [processImage, a0, hdec, a1, a2, heng, a3]

/-- An entry whose id differs from the update's is untouched by `applyUpdate`. -/
theorem mem_applyUpdate_of_ne {t : ProcessTask} {l : List ProcessTask}
    {u : ℕ × ProcessTask} (ht : t ∈ l) (hne : t.id ≠ u.1) :
    t ∈ applyUpdate l u := by
  unfold applyUpdate
  exact List.mem_map.mpr ⟨t, ht, by simp [hne]⟩

/-- `runPending` never touches a task whose id is not among the pending ones. -/
theorem runPending_preserves_mem (images : List ImageFile) (o : Oracle)
    (abortTime : Option ℕ) :
    ∀ (pending allTasks : List ProcessTask) (reads : ℕ) (t : ProcessTask),
      t ∈ allTasks → (∀ p ∈ pending, p.id ≠ t.id) →
      t ∈ (runPending images o abortTime allTasks pending reads).1 := by
  intro pending
  induction pending with
  | nil =>
    intro allTasks reads t ht _
    simpa [runPending] using ht
  | cons task rest ih =>
    intro allTasks reads t ht hids
    unfold runPending
    split
    · exact ht
    · cases hfind : images.find? (fun img => img.id = task.imageId) with
      | none =>
        simpa [hfind] using ih allTasks (reads + 1) t ht
          (fun p hp => hids p (List.mem_cons_of_mem _ hp))
      | some image =>
        have hne : task.id ≠ t.id := hids task (List.mem_cons_self _ _)
        have ht' : t ∈ applyUpdate allTasks (task.id,
            (processImage image task o abortTime (reads + 1)).task) :=
          mem_applyUpdate_of_ne ht (fun h => hne h.symm)
        simpa [hfind] using ih _ _ t ht'
          (fun p hp => hids p (List.mem_cons_of_mem _ hp))

/-- Every trace event of a run belongs to one of the pending tasks. -/
theorem runPending_trace_ids (images : List ImageFile) (o : Oracle)
    (abortTime : Option ℕ) :
    ∀ (pending allTasks : List ProcessTask) (reads : ℕ),
      ∀ ev ∈ (runPending images o abortTime allTasks pending reads).2.2,
        ∃ p ∈ pending, ev.taskId = p.id := by
  intro pending
  induction pending with
  | nil =>
    intro allTasks reads ev hev
    simp [runPending] at hev
  | cons task rest ih =>
    intro allTasks reads ev hev
    unfold runPending at hev
    split at hev
    · simp at hev
    · cases hfind : images.find? (fun img => img.id = task.imageId) with
      | none =>
        rw [hfind] at hev
        obtain ⟨p, hp, hid⟩ := ih _ _ ev hev
        exact ⟨p, List.mem_cons_of_mem _ hp, hid⟩
      | some image =>
        rw [hfind] at hev
        simp only [List.mem_append] at hev
        rcases hev with hev | hev
        · exact ⟨task, List.mem_cons_self _ _,
            processImage_trace_taskId image task o abortTime (reads + 1) ev hev⟩
        · obtain ⟨p, hp, hid⟩ := ih _ _ ev hev
          exact ⟨p, List.mem_cons_of_mem _ hp, hid⟩

/-- Every `processing` transition in a run's trace happens at a read index
where the signal was observed non-aborted. -/
theorem runPending_trace_processing (images : List ImageFile) (o : Oracle)
    (abortTime : Option ℕ) :
    ∀ (pending allTasks : List ProcessTask) (reads : ℕ),
      ∀ ev ∈ (runPending images o abortTime allTasks pending reads).2.2,
        ev.status = ProcessStatus.processing →
        signalAborted abortTime ev.reads = false := by
  intro pending
  induction pending with
  | nil =>
    intro allTasks reads ev hev
    simp [runPending] at hev
  | cons task rest ih =>
    intro allTasks reads ev hev hst
    unfold runPending at hev
    split at hev
    · simp at hev
    · cases hfind : images.find? (fun img => img.id = task.imageId) with
      | none =>
        rw [hfind] at hev
        exact ih _ _ ev hev hst
      | some image =>
        rw [hfind] at hev
        simp only [List.mem_append] at hev
        rcases hev with hev | hev
        · exact processImage_trace_processing image task o abortTime (reads + 1)
            ev hev hst
        · exact ih _ _ ev hev hst

/-- With no abort and all images resolvable, a run folds each pending task's
`taskOutcome` into the shared list and reports exactly the failing tasks'
error events, in list order. -/
theorem runPending_none_spec (images : List ImageFile) (o : Oracle) :
    ∀ (pending allTasks : List ProcessTask) (reads : ℕ),
      (∀ t ∈ pending, (images.find? fun img => img.id = t.imageId).isSome) →
      (runPending images o none allTasks pending reads).1 =
        pending.foldl (fun acc t =>
          applyUpdate acc (t.id, taskOutcome o (imageFor images t) t)) allTasks ∧
      (runPending images o none allTasks pending reads).2.1 =
        (pending.filter fun t => !(taskOk o t)).map
          (fun t => taskErrorEvent (imageFor images t)) := by
  intro pending
  induction pending with
  | nil =>
    intro allTasks reads _
    simp [runPending]
  | cons task rest ih =>
    intro allTasks reads hfound
    obtain ⟨img, hfind⟩ :=
      Option.isSome_iff_exists.mp (hfound task (List.mem_cons_self _ _))
    have himgFor : imageFor images task = img := by simp [imageFor, hfind]
    have himgId : img.id = task.imageId := by simpa using List.find?_some hfind
    have hrest : ∀ t ∈ rest, (images.find? fun img => img.id = t.imageId).isSome :=
      fun t ht => hfound t (List.mem_cons_of_mem _ ht)
    have ihr := ih (applyUpdate allTasks (task.id,
        (processImage img task o none (reads + 1)).task))
        ((processImage img task o none (reads + 1)).reads) hrest
    have htask := processImage_none_task img task o (reads + 1)
    have hevs := processImage_none_events img task o (reads + 1)
    have hok : (o.decodeOk img.id && o.engineOk task.id && o.encodeOk task.id) =
        taskOk o task := by
      rw [taskOk, himgId]
    constructor
    · rw [List.foldl_cons, himgFor, ← htask]
      rw [runPending]
      simp only [signalAborted, Bool.false_eq_true, if_false, hfind]
      exact ihr.1
    · rw [runPending]
      simp only [signalAborted, Bool.false_eq_true, if_false, hfind]
      rw [hevs, hok, ihr.2, List.filter_cons]
      by_cases h : taskOk o task = true
      · simp [h]
      · simp only [Bool.not_eq_true] at h
        simp [h, himgFor]

/-- Folding per-task id-keyed updates over a list with nodup ids is a
pointwise map. -/
theorem foldl_applyUpdate_eq_map (g : ProcessTask → ProcessTask)
    (hg : ∀ t, (g t).id = t.id) :
    ∀ (l pre : List ProcessTask),
      ((pre ++ l).map ProcessTask.id).Nodup →
      l.foldl (fun acc t => applyUpdate acc (t.id, g t)) (pre ++ l) = pre ++ l.map g := by
  intro l
  induction l with
  | nil =>
    intro pre _
    simp
  | cons t rs ih =>
    intro pre hnd
    have hnd0 := hnd
    simp only [List.map_append, List.map_cons, List.nodup_append,
      List.nodup_cons] at hnd
    obtain ⟨h1, ⟨h2, h3⟩, h4⟩ := hnd
    have hpre : ∀ x ∈ pre, x.id ≠ t.id := fun x hx h =>
      h4 (List.mem_map_of_mem _ hx) (by simp [h])
    have hrs : ∀ x ∈ rs, x.id ≠ t.id := fun x hx h =>
      h2 (by rw [← h]; exact List.mem_map_of_mem _ hx)
    have hstep : applyUpdate (pre ++ t :: rs) (t.id, g t) = (pre ++ [g t]) ++ rs := by
      unfold applyUpdate
      rw [List.map_append, List.map_cons]
      rw [List.map_congr_left (fun x hx => if_neg (hpre x hx)), List.map_id']
      rw [List.map_congr_left (fun x hx => if_neg (hrs x hx)), List.map_id']
      simp
    rw [List.foldl_cons, hstep]
    have hnd' : (((pre ++ [g t]) ++ rs).map ProcessTask.id).Nodup := by
      simpa [hg t, List.append_assoc] using hnd0
    rw [ih (pre ++ [g t]) hnd']
    simp

/-- C1: with no abort, a batch run over pending tasks with distinct ids and
resolvable images leaves on each task exactly its own outcome — `completed`
on success, `failed` with the stage's error message recorded on the task if
its decode, engine or format-conversion step throws — reports exactly one
error event per failing task (in list order), processes every task (no early
stop), and ends with `isProcessing = false`. -/
theorem batch_failure_isolation (st : BatchState) (newTasks : List ProcessTask)
    (images : List ImageFile) (o : Oracle)
    (hproc : st.isProcessing = false)
    (hfound : ∀ t ∈ newTasks, (images.find? fun img => img.id = t.imageId).isSome)
    (hpend : ∀ t ∈ newTasks, t.status = ProcessStatus.pending)
    (hnodup : (newTasks.map ProcessTask.id).Nodup) :
    (executeBatch st newTasks images o none).tasks =
      newTasks.map (fun t => taskOutcome o (imageFor images t) t) ∧
    (executeBatch st newTasks images o none).events =
      (newTasks.filter fun t => !(taskOk o t)).map
        (fun t => taskErrorEvent (imageFor images t)) ∧
    (executeBatch st newTasks images o none).isProcessing = false ∧
    (∀ (image : ImageFile) (t : ProcessTask), image.id = t.imageId →
      (taskOk o t = true →
        (taskOutcome o image t).status = ProcessStatus.completed ∧
        (taskOutcome o image t).id = t.id) ∧
      (taskOk o t = false →
        (taskOutcome o image t).status = ProcessStatus.failed ∧
        (taskOutcome o image t).id = t.id ∧
        (taskOutcome o image t).error ≠ none)) := by
  have hfilter : newTasks.filter (fun task =>
      task.status = ProcessStatus.pending ∨ task.status = ProcessStatus.failed) =
      newTasks :=
    List.filter_eq_self.mpr (fun t ht => by simp [hpend t ht])
  have hrun := runPending_none_spec images o newTasks newTasks 0 hfound
  have hfold := foldl_applyUpdate_eq_map
    (fun t => taskOutcome o (imageFor images t) t)
    (fun t => taskOutcome_id o (imageFor images t) t) newTasks [] (by simpa using hnodup)
  refine ⟨?_, ?_, ?_, ?_⟩
  · simp only [executeBatch, hproc, Bool.false_eq_true, if_false, hfilter]
    rw [hrun.1]
    simpa using hfold
  · simp only [executeBatch, hproc, Bool.false_eq_true, if_false, hfilter]
    exact hrun.2
  · simp [executeBatch, hproc]
  · intro image t himg
    by_cases h1 : o.decodeOk t.imageId <;>
      by_cases h2 : o.engineOk t.id <;>
      by_cases h3 : o.encodeOk t.id <;>
      constructor <;>
      intro hok <;>
      simp_all [taskOk, taskOutcome, himg]

/-- C1 witness: the five-task scenario in which only task 3's decode fails
ends with exactly 4 completed and 1 failed task, one error event, and no
early stop. -/
theorem batch_failure_isolation_witness :
    ((BatchState.mk [] false).isProcessing = false ∧
      (executeBatch ⟨[], false⟩ fiveTasks fiveImages decode3FailsOracle none).tasks =
        fiveTasks.map (fun t =>
          taskOutcome decode3FailsOracle (imageFor fiveImages t) t)) ∧
    ((executeBatch ⟨[], false⟩ fiveTasks fiveImages decode3FailsOracle none).tasks.filter
        (fun t => t.status = ProcessStatus.completed)).length = 4 ∧
    ((executeBatch ⟨[], false⟩ fiveTasks fiveImages decode3FailsOracle none).tasks.filter
        (fun t => t.status = ProcessStatus.failed)).length = 1 ∧
    (executeBatch ⟨[], false⟩ fiveTasks fiveImages decode3FailsOracle none).events.length
      = 1 :=
  ⟨⟨rfl, (batch_failure_isolation ⟨[], false⟩ fiveTasks fiveImages decode3FailsOracle
      rfl (by decide) (by decide) (by decide)).1⟩,
   by decide, by decide, by decide⟩

/-- C2: after the shared signal is observed aborted, no task transitions to
`processing` (every `processing` transition in the trace happened at a read
where the signal was non-aborted); a task observing the abort at any of its
four checkpoints ends `cancelled` rather than `completed`/`failed`; and
already-completed tasks survive any run unchanged, with their result. -/
theorem batch_cancellation_safety (st : BatchState) (newTasks : List ProcessTask)
    (images : List ImageFile) (o : Oracle) (abortTime : Option ℕ)
    (image : ImageFile) (task : ProcessTask) (reads : ℕ)
    (hproc : st.isProcessing = false)
    (hnodup : (newTasks.map ProcessTask.id).Nodup) :
    (∀ ev ∈ (executeBatch st newTasks images o abortTime).trace,
      ev.status = ProcessStatus.processing →
      signalAborted abortTime ev.reads = false) ∧
    (signalAborted abortTime reads = true →
      (processImage image task o abortTime reads).task.status =
        ProcessStatus.cancelled) ∧
    (o.decodeOk image.id = true → signalAborted abortTime (reads + 1) = true →
      (processImage image task o abortTime reads).task.status =
        ProcessStatus.cancelled) ∧
    (o.decodeOk image.id = true → signalAborted abortTime (reads + 2) = true →
      (processImage image task o abortTime reads).task.status =
        ProcessStatus.cancelled) ∧
    (o.decodeOk image.id = true → o.engineOk task.id = true →
      signalAborted abortTime (reads + 3) = true →
      (processImage image task o abortTime reads).task.status =
        ProcessStatus.cancelled) ∧
    (∀ t ∈ newTasks, t.status = ProcessStatus.completed →
      t ∈ (executeBatch st newTasks images o abortTime).tasks) := by
  obtain ⟨hc0, hc1, hc2, hc3⟩ :=
    processImage_abort_cancelled image task o abortTime reads
  refine ⟨?_, hc0, hc1, hc2, hc3, ?_⟩
  · intro ev hev hst
    simp only [executeBatch, hproc, Bool.false_eq_true, if_false] at hev
    exact runPending_trace_processing images o abortTime _ _ _ ev hev hst
  · intro t ht hst
    simp only [executeBatch, hproc, Bool.false_eq_true, if_false]
    apply runPending_preserves_mem images o abortTime _ _ _ t ht
    intro p hp heq
    have hpmem : p ∈ newTasks := List.mem_of_mem_filter hp
    have hpstat : (p.status = ProcessStatus.pending ∨
        p.status = ProcessStatus.failed) := by
      simpa using List.of_mem_filter hp
    have hpt : p = t := List.inj_on_of_nodup_map hnodup hpmem ht heq
    rw [hpt, hst] at hpstat
    simp at hpstat

/-- C2 witness: with the signal aborted from the very first read, the first
task of a concrete run is cancelled at its first checkpoint, every recorded
`processing` transition precedes the abort, and a completed task survives. -/
theorem batch_cancellation_safety_witness :
    (signalAborted (some 0) 0 = true ∧
      (processImage (sampleImage 1) (samplePendingTask 1) allOkOracle
        (some 0) 0).task.status = ProcessStatus.cancelled) ∧
    (completedCropTask.status = ProcessStatus.completed ∧
      completedCropTask ∈ (executeBatch ⟨[], false⟩ [completedCropTask]
        fiveImages allOkOracle (some 0)).tasks) :=
  ⟨⟨by decide, (batch_cancellation_safety ⟨[], false⟩ [completedCropTask] fiveImages
      allOkOracle (some 0) (sampleImage 1) (samplePendingTask 1) 0 rfl
      (by decide)).2.1 (by decide)⟩,
   ⟨rfl, (batch_cancellation_safety ⟨[], false⟩ [completedCropTask] fiveImages
      allOkOracle (some 0) (sampleImage 1) (samplePendingTask 1) 0 rfl
      (by decide)).2.2.2.2.2 completedCropTask (by decide) rfl⟩⟩

/-- C4 (amended): `startBatch` reuses a completed `(imageId, crop)` task
unchanged — it appears as-is in the run's final list and is never
re-processed (no trace event carries its id) — whereas `startResizeBatch`
never reuses: it builds a fresh `pending` task with a freshly generated id
for every image, so completed resize tasks are replaced and their images
re-processed. -/
theorem buildBatch_reuse_spec :
    (∀ (genId : ℕ → ℕ) (st : BatchState) (images : List ImageFile)
        (cropParams : CropParams ℚ) (outputSettings : OutputSettings)
        (o : Oracle) (abortTime : Option ℕ),
      st.isProcessing = false →
      ((buildCropTasks genId st.tasks images cropParams outputSettings).map
        ProcessTask.id).Nodup →
      ∀ image ∈ images, ∀ e : ProcessTask,
        st.tasks.find? (fun tk =>
          tk.imageId = image.id ∧ tk.processType = ProcessType.crop) = some e →
        e.status = ProcessStatus.completed →
        e ∈ (startBatch genId st images cropParams outputSettings o abortTime).tasks ∧
        ∀ ev ∈ (startBatch genId st images cropParams outputSettings o
            abortTime).trace, ev.taskId ≠ e.id) ∧
    (∀ (genId : ℕ → ℕ) (images : List ImageFile)
        (resizeSettings : ProportionalResizeSettings ℚ)
        (outputSettings : OutputSettings),
      List.Forall₂ (fun image t => t.id = genId image.id ∧
          t.status = ProcessStatus.pending ∧
          t.processType = ProcessType.resize ∧ t.processedBlob = none)
        images (buildResizeTasks genId images resizeSettings outputSettings)) := by
  constructor
  · intro genId st images cropParams outputSettings o abortTime hproc hnodup
      image himg e hfind hcomp
    have hmem : e ∈ buildCropTasks genId st.tasks images cropParams outputSettings :=
      List.mem_map.mpr ⟨image, himg, by rw [hfind]; simp [hcomp]⟩
    have hids : ∀ p ∈ (buildCropTasks genId st.tasks images cropParams
        outputSettings).filter (fun task =>
          task.status = ProcessStatus.pending ∨ task.status = ProcessStatus.failed),
        p.id ≠ e.id := by
      intro p hp heq
      have hpmem : p ∈ buildCropTasks genId st.tasks images cropParams outputSettings :=
        List.mem_of_mem_filter hp
      have hpstat : (p.status = ProcessStatus.pending ∨
          p.status = ProcessStatus.failed) := by
        simpa using List.of_mem_filter hp
      have hpe : p = e := List.inj_on_of_nodup_map hnodup hpmem hmem heq
      rw [hpe, hcomp] at hpstat
      simp at hpstat
    constructor
    · simp only [startBatch, executeBatch, hproc, Bool.false_eq_true, if_false]
      exact runPending_preserves_mem images o abortTime _ _ _ e hmem hids
    · intro ev hev
      simp only [startBatch, executeBatch, hproc, Bool.false_eq_true,
        if_false] at hev
      obtain ⟨p, hp, hid⟩ := runPending_trace_ids images o abortTime _ _ _ ev hev
      rw [hid]
      exact hids p hp
  · intro genId images resizeSettings outputSettings
    induction images with
    | nil => exact List.Forall₂.nil
    | cons image rest ih =>
      refine List.Forall₂.cons ?_ ih
      simp [buildResizeTasks]

/-- C4 witness: a concrete completed crop task is reused — it sits unchanged
in the final task list and no trace event touches it. -/
theorem buildBatch_reuse_spec_witness :
    ((BatchState.mk [completedCropTask] false).isProcessing = false ∧
      completedCropTask.status = ProcessStatus.completed) ∧
    completedCropTask ∈ (startBatch (fun _ => 99) ⟨[completedCropTask], false⟩
      [sampleImage 1] sampleCropParams sampleOutput allOkOracle none).tasks :=
  ⟨⟨rfl, rfl⟩,
   ((buildBatch_reuse_spec.1 (fun _ => 99) ⟨[completedCropTask], false⟩
      [sampleImage 1] sampleCropParams sampleOutput allOkOracle none rfl
      (by decide) (sampleImage 1) (by decide) completedCropTask (by decide)
      rfl).1)⟩

/-! ### Engine geometry -/

/-- The identity transform fixes every point. -/
theorem Affine.identity_apply (u : ℝ × ℝ) : Affine.identity.apply u = u := by
  simp [Affine.identity, Affine.apply]

/-- C7: for `borderRadiusFraction > 0` the engine records a rounded-rectangle
clip over the output bounds whose radius is
`min(width, height) * borderRadius / 2` clamped to
`min(radius, width/2, height/2)`, established at the identity CTM; pixels
outside that rounded rectangle stay transparent in the output; and the CTM in
effect at the draw equals exactly the translate/rotate/flip CTM of the
unclipped pipeline (the transform is re-applied after the clip). -/
theorem crop_rounded_clip_spec (img : SourceImage) (p : CropParams ℝ)
    (hbr : p.borderRadius > 0) :
    (cropCtxAfterSetup p).clip =
      some ⟨createRoundedRectPath 0 0 p.width p.height
        (min p.width p.height * p.borderRadius / 2), Affine.identity⟩ ∧
    (createRoundedRectPath 0 0 p.width p.height
        (min p.width p.height * p.borderRadius / 2)).r =
      min (min p.width p.height * p.borderRadius / 2)
        (min (p.width / 2) (p.height / 2)) ∧
    (cropCtxAfterSetup p).transform =
      (cropCtxAfterSetup { p with borderRadius := 0 }).transform ∧
    (∀ i j : ℤ,
      ¬ inRoundedRect (createRoundedRectPath 0 0 p.width p.height
          (min p.width p.height * p.borderRadius / 2))
        ((i : ℝ) + 1 / 2, (j : ℝ) + 1 / 2) →
      (cropImage img p none).surface i j = none) := by
  have hclip : (cropCtxAfterSetup p).clip =
      some ⟨createRoundedRectPath 0 0 p.width p.height
        (min p.width p.height * p.borderRadius / 2), Affine.identity⟩ := by
    by_cases hrot : p.rotation = 0 <;>
      simp [cropCtxAfterSetup, Ctx.initial, Ctx.save, Ctx.restore, Ctx.translate,
        Ctx.rotate, Ctx.scale, Ctx.clipRRect, hbr, hrot]
  refine ⟨hclip, rfl, ?_, ?_⟩
  · by_cases hrot : p.rotation = 0 <;>
      simp [cropCtxAfterSetup, Ctx.initial, Ctx.save, Ctx.restore, Ctx.translate,
        Ctx.rotate, Ctx.scale, Ctx.clipRRect, hbr, hrot]
  · intro i j hout
    show (cropImage img p none).surface i j = none
    simp only [cropImage]
    simp only [drawImageOn]
    rw [if_neg]
    · rfl
    · rintro ⟨-, hin⟩
      rw [hclip] at hin
      obtain ⟨u, hu, hrr⟩ := hin
      rw [Affine.identity_apply] at hu
      rw [hu] at hrr
      exact hout hrr

/-- C7 witness: the clip conjunct at a concrete geometry with
`borderRadius = 1/2`. -/
theorem crop_rounded_clip_spec_witness :
    (0 : ℝ) < cropRounded.borderRadius ∧
    (cropCtxAfterSetup cropRounded).clip =
      some ⟨createRoundedRectPath 0 0 cropRounded.width cropRounded.height
        (min cropRounded.width cropRounded.height * cropRounded.borderRadius / 2),
        Affine.identity⟩ :=
  ⟨by norm_num [cropRounded],
   (crop_rounded_clip_spec sampleSource cropRounded (by norm_num [cropRounded])).1⟩

/-- C8: with no rotation, no flip, no corner radius and no enabled resize
target, the crop output surface is exactly `geometry.width × geometry.height`;
and with `x = y = 0`, `width = 100`, `height = 200` on a source of at least
100×200 pixels, every output pixel equals the corresponding source pixel of
the top-left 100×200 region. -/
theorem crop_identity_geometry (img : SourceImage) (p : CropParams ℝ)
    (rt : Option (ResizeTarget ℝ))
    (hrot : p.rotation = 0) (hfh : p.flipHorizontal = false)
    (hfv : p.flipVertical = false) (hbr : p.borderRadius = 0)
    (hrt : rt = none ∨ ∃ r, rt = some r ∧ r.enabled = false) :
    ((cropImage img p rt).width = p.width ∧ (cropImage img p rt).height = p.height) ∧
    (p.x = 0 → p.y = 0 → p.width = 100 → p.height = 200 →
      100 ≤ img.width → 200 ≤ img.height →
      ∀ i j : ℤ, 0 ≤ i → i < 100 → 0 ≤ j → j < 200 →
        (cropImage img p rt).surface i j = some (img.pixel i j)) := by
  have hctx : cropCtxAfterSetup p =
      ⟨⟨1, 0, 0, 1, p.width / 2, p.height / 2⟩, none, [(Affine.identity, none)]⟩ := by
    simp only [cropCtxAfterSetup, Ctx.initial, Ctx.save, Ctx.translate, Ctx.rotate,
      Ctx.scale, Ctx.clipRRect, hrot, hfh, hfv, hbr]
    norm_num [Affine.identity, Affine.mul, Affine.translateM, Affine.scaleM]
  have hdrawn : p.x = 0 → p.y = 0 → p.width = 100 → p.height = 200 →
      100 ≤ img.width → 200 ≤ img.height →
      ∀ i j : ℤ, 0 ≤ i → i < 100 → 0 ≤ j → j < 200 →
      drawImageOn Surface.blank (cropCtxAfterSetup p).transform
        (cropCtxAfterSetup p).clip img p.x p.y p.width p.height
        (-(p.width / 2)) (-(p.height / 2)) p.width p.height i j =
        some (img.pixel i j) := by
    intro hx hy hw hh hiw hih i j hi0 hi1 hj0 hj1
    have hi0' : (0 : ℝ) ≤ (i : ℝ) := by exact_mod_cast hi0
    have hi1' : (i : ℝ) < 100 := by exact_mod_cast hi1
    have hj0' : (0 : ℝ) ≤ (j : ℝ) := by exact_mod_cast hj0
    have hj1' : (j : ℝ) < 200 := by exact_mod_cast hj1
    have hi99 : (i : ℝ) ≤ 99 := by
      have : i ≤ 99 := by omega
      exact_mod_cast this
    have hj199 : (j : ℝ) ≤ 199 := by
      have : j ≤ 199 := by omega
      exact_mod_cast this
    have hiw' : (100 : ℝ) ≤ (img.width : ℝ) := by exact_mod_cast hiw
    have hih' : (200 : ℝ) ≤ (img.height : ℝ) := by exact_mod_cast hih
    rw [hctx, hx, hy, hw, hh]
    simp only [drawImageOn]
    have hu : (Affine.mk 1 0 0 1 ((100 : ℝ) / 2) ((200 : ℝ) / 2)).inv.apply
        ((i : ℝ) + 1 / 2, (j : ℝ) + 1 / 2) =
        ((i : ℝ) + 1 / 2 - 50, (j : ℝ) + 1 / 2 - 100) := by
      simp only [Affine.inv, Affine.apply]
      norm_num
      exact ⟨by ring, by ring⟩
    rw [hu]
    rw [if_pos]
    · have hsx : (0 : ℝ) + ((i : ℝ) + 1 / 2 - 50 - -(100 / 2)) * 100 / 100 =
          (i : ℝ) + 1 / 2 := by ring
      have hsy : (0 : ℝ) + ((j : ℝ) + 1 / 2 - 100 - -(200 / 2)) * 200 / 200 =
          (j : ℝ) + 1 / 2 := by ring
      simp only
      rw [hsx, hsy, SourceImage.sample, if_pos]
      · have hfi : ⌊(i : ℝ) + 1 / 2⌋ = i := by
          rw [add_comm, Int.floor_add_int]; norm_num
        have hfj : ⌊(j : ℝ) + 1 / 2⌋ = j := by
          rw [add_comm, Int.floor_add_int]; norm_num
        rw [hfi, hfj]
      · refine ⟨by linarith, by linarith, by linarith, by linarith⟩
    · refine ⟨⟨by norm_num; linarith, by norm_num; linarith,
        by norm_num; linarith, by norm_num; linarith⟩, trivial⟩
  rcases hrt with hnone | ⟨r, hsome, hen⟩
  · subst hnone
    refine ⟨⟨rfl, rfl⟩, ?_⟩
    intro hx hy hw hh hiw hih i j hi0 hi1 hj0 hj1
    exact hdrawn hx hy hw hh hiw hih i j hi0 hi1 hj0 hj1
  · subst hsome
    refine ⟨⟨by simp [cropImage, hen], by simp [cropImage, hen]⟩, ?_⟩
    intro hx hy hw hh hiw hih i j hi0 hi1 hj0 hj1
    have := hdrawn hx hy hw hh hiw hih i j hi0 hi1 hj0 hj1
    simpa [cropImage, hen] using this

/-- C8 witness: the concrete 100×200 crop of a 100×200 source: output
dimensions and the pixel at (0, 0). -/
theorem crop_identity_geometry_witness :
    cropNoTransform.rotation = 0 ∧
    ((cropImage sampleSource cropNoTransform none).width = cropNoTransform.width ∧
      (cropImage sampleSource cropNoTransform none).height = cropNoTransform.height) ∧
    (cropImage sampleSource cropNoTransform none).surface 0 0 =
      some (sampleSource.pixel 0 0) := by
  have h := crop_identity_geometry sampleSource cropNoTransform none rfl rfl rfl rfl
    (Or.inl rfl)
  refine ⟨rfl, h.1, ?_⟩
  exact h.2 rfl rfl rfl rfl (by norm_num [sampleSource]) (by norm_num [sampleSource])
    0 0 le_rfl (by norm_num) le_rfl (by norm_num)

end Cropify
